import Mathlib

/-!
# Verification of the Solana task-manager program

Shallow embedding of `src/Solana Code/lib.rs` (Anchor program `task_manager`).

The program manages a single account type `Task`, addressed by a program-derived
address (PDA) with seeds `[b"task", author_pubkey, title_bytes]`.  We model:

* `Pubkey` as an abstract identity (`Nat`);
* a PDA as the tuple of its seeds (`Address`): Solana's `find_program_address`
  hashes the concatenation of the seeds, with the 32-byte owner key fixed-width,
  so distinct `(owner, title)` pairs give distinct seed byte strings; the
  collision-resistant hash is idealised as injective;
* the per-address account store as an association list `Store`;
* Rust's `String::len` (UTF-8 byte length) as `rustByteLen` and `str::trim`
  (drop leading and trailing characters with the Unicode White_Space property,
  the set Rust's `char::is_whitespace` tests) as `rustTrim`, both defined over
  the string's character list so that the kernel can evaluate them;
* each instruction as a function `Store → ... → Except ProgError Store`, where
  Anchor account resolution (the `init` existence check for `create`, the
  `seeds` constraint for the other three, the `close = author` reclamation for
  `delete`) happens before the handler body, exactly as on chain.
-/

namespace TaskManager

/-- An account identity (32-byte public key in the source), abstracted. -/
abbrev Pubkey := Nat

/-- UTF-8 byte length of a character list (what Rust's `String::len` counts). -/
def byteLenL (cs : List Char) : Nat := (cs.map Char.utf8Size).sum

/-- Rust `String::len`: the UTF-8 byte length of the string. -/
def rustByteLen (s : String) : Nat := byteLenL s.data

/-- Rust `char::is_whitespace`: the Unicode White_Space property, i.e. the
code points U+0009-U+000D, U+0020, U+0085, U+00A0, U+1680, U+2000-U+200A,
U+2028, U+2029, U+202F, U+205F and U+3000. -/
def rustIsWhitespace (c : Char) : Bool :=
  decide ((0x09 ≤ c.toNat ∧ c.toNat ≤ 0x0D) ∨ c.toNat = 0x20 ∨ c.toNat = 0x85 ∨
    c.toNat = 0xA0 ∨ c.toNat = 0x1680 ∨ (0x2000 ≤ c.toNat ∧ c.toNat ≤ 0x200A) ∨
    c.toNat = 0x2028 ∨ c.toNat = 0x2029 ∨ c.toNat = 0x202F ∨ c.toNat = 0x205F ∨
    c.toNat = 0x3000)

/-- Rust `str::trim`: the string with leading and trailing whitespace
characters removed, as a character list. -/
def rustTrim (s : String) : List Char :=
  ((s.data.dropWhile rustIsWhitespace).reverse.dropWhile rustIsWhitespace).reverse

/-- Rust `s.trim().is_empty()`. -/
def rustTrimEmpty (s : String) : Bool := (rustTrim s).isEmpty

/-- The trim model covers the full Unicode White_Space set: a lone vertical
tab (U+000B) or no-break space (U+00A0) is whitespace, so such strings are
empty after trimming. -/
theorem rustTrimEmpty_unicode_whitespace :
    rustTrimEmpty "\x0B" = true ∧ rustTrimEmpty "\u00A0" = true ∧
    rustTrimEmpty "\x0C\u0085\u2003" = true := by decide

/-- The `Task` account (struct `Task` in lib.rs). -/
structure Task where
  author : Pubkey
  title : String
  description : String
  is_completed : Bool
  created_at : Int
deriving Repr, DecidableEq

/-- The program's error enum `ErrorTask`. -/
inductive ErrorTask where
  | TitleTooLong
  | DescriptionTooLong
  | TitleIsEmpty
  | DescriptionIsEmpty
  | Unauthorized
  | TitleNotFound
deriving Repr, DecidableEq

/-- Errors surfaced by an instruction: either a `require!` failure from the
handler, or an Anchor account-constraint failure (the `init` constraint on an
occupied address, a missing account, or a `seeds` mismatch). -/
inductive ProgError where
  | taskError (e : ErrorTask)
  | alreadyExists
  | accountNotFound
  | seedsViolation
deriving Repr, DecidableEq

/-- A program-derived address, modelled as its seed tuple
`[b"task", author.key().as_ref(), title.as_bytes()]`.  The owner key is
fixed-width on chain, so the seed concatenation is injective in
`(owner, title)`; the SHA-256 based PDA map is idealised as injective. -/
structure Address where
  tag : String
  owner : Pubkey
  titleBytes : String
deriving Repr, DecidableEq

/-- `seeds = [b"task", author.key().as_ref(), title.as_bytes()]`. -/
def deriveAddress (owner : Pubkey) (title : String) : Address :=
  { tag := "task", owner := owner, titleBytes := title }

/-- The on-chain account store restricted to this program's accounts:
a finite map from addresses to `Task` accounts. -/
abbrev Store := List (Address × Task)

/-- Look up the account at an address. -/
def lookupTask : Store → Address → Option Task
  | [], _ => none
  | (a, t) :: rest, addr => if a = addr then some t else lookupTask rest addr

/-- Remove the account at an address (used by `close` and by overwriting). -/
def removeTask : Store → Address → Store
  | [], _ => []
  | (a, t) :: rest, addr =>
      if a = addr then removeTask rest addr else (a, t) :: removeTask rest addr

/-- Store an account at an address, replacing any previous account there. -/
def writeTask (s : Store) (addr : Address) (t : Task) : Store :=
  (addr, t) :: removeTask s addr

/-- The record-store read: `NotFound` when the address holds no account. -/
def readTask (s : Store) (addr : Address) : Except ProgError Task :=
  match lookupTask s addr with
  | none => .error .accountNotFound
  | some t => .ok t

/-- `create_task` (lib.rs lines 12-38 plus the `CreateTask` accounts struct).
The account address is forced to the PDA of `(author, title)`; the `init`
constraint fails if that address is occupied (checked by Anchor before the
handler runs); then the handler's four `require!` checks run in source order
(title length, title trimmed-emptiness, description length, description
trimmed-emptiness) and on success the record is stored with
`is_completed = false` and `created_at = now` (the `Clock` sysvar value). -/
def create_task (s : Store) (caller : Pubkey) (title description : String)
    (now : Int) : Except ProgError Store :=
  if (lookupTask s (deriveAddress caller title)).isSome then .error .alreadyExists
  else if 100 < rustByteLen title then .error (.taskError .TitleTooLong)
  else if rustTrimEmpty title then .error (.taskError .TitleIsEmpty)
  else if 1000 < rustByteLen description then .error (.taskError .DescriptionTooLong)
  else if rustTrimEmpty description then .error (.taskError .DescriptionIsEmpty)
  else .ok (writeTask s (deriveAddress caller title)
    { author := caller, title := title, description := description,
      is_completed := false, created_at := now })

/-- `update_task` (lib.rs lines 41-58 plus the `UpdateTask` accounts struct).
Anchor resolves the passed account: it must exist, and its address must equal
the PDA of `(author, task.title)` (the `seeds` constraint).  The handler then
checks the new description's length and trimmed-emptiness in source order and
replaces only the `description` field. -/
def update_task (s : Store) (caller : Pubkey) (addr : Address)
    (description : String) : Except ProgError Store :=
  match lookupTask s addr with
  | none => .error .accountNotFound
  | some task =>
    if deriveAddress caller task.title ≠ addr then .error .seedsViolation
    else if 1000 < rustByteLen description then .error (.taskError .DescriptionTooLong)
    else if rustTrimEmpty description then .error (.taskError .DescriptionIsEmpty)
    else .ok (writeTask s addr { task with description := description })

/-- `complete_task` (lib.rs lines 60-69 plus the `CompleteTask` accounts
struct).  After account resolution the handler unconditionally sets
`is_completed = true`. -/
def complete_task (s : Store) (caller : Pubkey) (addr : Address) :
    Except ProgError Store :=
  match lookupTask s addr with
  | none => .error .accountNotFound
  | some task =>
    if deriveAddress caller task.title ≠ addr then .error .seedsViolation
    else .ok (writeTask s addr { task with is_completed := true })

/-- `delete_task` (lib.rs lines 71-83 plus the `DeleteTask` accounts struct).
After account resolution the handler requires the stored `author` to equal the
signer (`ErrorTask::Unauthorized` otherwise); on success Anchor's
`close = author` removes the account and refunds its rent to the author. -/
def delete_task (s : Store) (caller : Pubkey) (addr : Address) :
    Except ProgError Store :=
  match lookupTask s addr with
  | none => .error .accountNotFound
  | some task =>
    if deriveAddress caller task.title ≠ addr then .error .seedsViolation
    else if task.author = caller then .ok (removeTask s addr)
    else .error (.taskError .Unauthorized)

instance {ε α : Type _} [DecidableEq ε] [DecidableEq α] : DecidableEq (Except ε α)
  | .ok a, .ok b =>
      if h : a = b then .isTrue (congrArg Except.ok h)
      else .isFalse (fun hc => h (Except.ok.inj hc))
  | .error a, .error b =>
      if h : a = b then .isTrue (congrArg Except.error h)
      else .isFalse (fun hc => h (Except.error.inj hc))
  | .ok _, .error _ => .isFalse Except.noConfusion
  | .error _, .ok _ => .isFalse Except.noConfusion

theorem lookupTask_removeTask (s : Store) (addr a : Address) :
    lookupTask (removeTask s addr) a = if addr = a then none else lookupTask s a := by
  induction s with
  | nil => by_cases h : addr = a <;> simp [removeTask, lookupTask, h]
  | cons hd tl ih =>
    obtain ⟨a2, t2⟩ := hd
    simp only [removeTask]
    by_cases h1 : a2 = addr
    · subst h1
      rw [if_pos rfl, ih]
      by_cases h2 : a2 = a
      · subst h2; simp [lookupTask]
      · have h4 : ¬ a2 = a := h2
        simp [lookupTask, h4]
    · rw [if_neg h1]
      simp only [lookupTask, ih]
      by_cases h2 : a2 = a
      · subst h2
        have h4 : ¬ addr = a2 := fun h => h1 h.symm
        simp [h4]
      · simp [h2]

theorem lookupTask_writeTask (s : Store) (addr a : Address) (t : Task) :
    lookupTask (writeTask s addr t) a = if addr = a then some t else lookupTask s a := by
  simp only [writeTask, lookupTask, lookupTask_removeTask]
  by_cases h : addr = a <;> simp [h]

theorem removeTask_removeTask (s : Store) (addr : Address) :
    removeTask (removeTask s addr) addr = removeTask s addr := by
  induction s with
  | nil => rfl
  | cons hd tl ih =>
    obtain ⟨a2, t2⟩ := hd
    by_cases h : a2 = addr <;> simp [removeTask, h, ih]

/-- Successful `create_task`, characterised. -/
theorem create_task_ok_iff (s : Store) (caller : Pubkey) (title description : String)
    (now : Int) (s' : Store) :
    create_task s caller title description now = .ok s' ↔
      lookupTask s (deriveAddress caller title) = none ∧
      rustByteLen title ≤ 100 ∧ rustTrimEmpty title = false ∧
      rustByteLen description ≤ 1000 ∧ rustTrimEmpty description = false ∧
      s' = writeTask s (deriveAddress caller title)
        { author := caller, title := title, description := description,
          is_completed := false, created_at := now } := by
  constructor
  · intro h
    unfold create_task at h
    by_cases h0 : (lookupTask s (deriveAddress caller title)).isSome = true
    · rw [if_pos h0] at h; exact Except.noConfusion h
    rw [if_neg h0] at h
    by_cases h1 : 100 < rustByteLen title
    · rw [if_pos h1] at h; exact Except.noConfusion h
    rw [if_neg h1] at h
    by_cases h2 : rustTrimEmpty title = true
    · rw [if_pos h2] at h; exact Except.noConfusion h
    rw [if_neg h2] at h
    by_cases h3 : 1000 < rustByteLen description
    · rw [if_pos h3] at h; exact Except.noConfusion h
    rw [if_neg h3] at h
    by_cases h4 : rustTrimEmpty description = true
    · rw [if_pos h4] at h; exact Except.noConfusion h
    rw [if_neg h4] at h
    exact ⟨Option.not_isSome_iff_eq_none.mp h0, Nat.not_lt.mp h1,
           Bool.eq_false_iff.mpr h2, Nat.not_lt.mp h3, Bool.eq_false_iff.mpr h4,
           (Except.ok.inj h).symm⟩
  · rintro ⟨h0, h1, h2, h3, h4, h5⟩
    unfold create_task
    rw [if_neg (by rw [h0]; simp), if_neg (Nat.not_lt.mpr h1), if_neg (by rw [h2]; simp),
        if_neg (Nat.not_lt.mpr h3), if_neg (by rw [h4]; simp), h5]

/-- Successful `update_task`, characterised. -/
theorem update_task_ok_iff (s : Store) (caller : Pubkey) (addr : Address)
    (description : String) (s' : Store) :
    update_task s caller addr description = .ok s' ↔
      ∃ task, lookupTask s addr = some task ∧
        deriveAddress caller task.title = addr ∧
        rustByteLen description ≤ 1000 ∧ rustTrimEmpty description = false ∧
        s' = writeTask s addr { task with description := description } := by
  constructor
  · intro h
    unfold update_task at h
    split at h
    · exact Except.noConfusion h
    next task hl =>
      by_cases h0 : deriveAddress caller task.title ≠ addr
      · rw [if_pos h0] at h; exact Except.noConfusion h
      rw [if_neg h0] at h
      rw [not_not] at h0
      by_cases h1 : 1000 < rustByteLen description
      · rw [if_pos h1] at h; exact Except.noConfusion h
      rw [if_neg h1] at h
      by_cases h2 : rustTrimEmpty description = true
      · rw [if_pos h2] at h; exact Except.noConfusion h
      rw [if_neg h2] at h
      exact ⟨task, hl, h0, Nat.not_lt.mp h1, Bool.eq_false_iff.mpr h2,
             (Except.ok.inj h).symm⟩
  · rintro ⟨task, hl, h0, h1, h2, h3⟩
    unfold update_task
    rw [hl]
    simp only []
    rw [if_neg (by rw [not_not]; exact h0), if_neg (Nat.not_lt.mpr h1),
        if_neg (by rw [h2]; simp), h3]

/-- Successful `complete_task`, characterised. -/
theorem complete_task_ok_iff (s : Store) (caller : Pubkey) (addr : Address) (s' : Store) :
    complete_task s caller addr = .ok s' ↔
      ∃ task, lookupTask s addr = some task ∧
        deriveAddress caller task.title = addr ∧
        s' = writeTask s addr { task with is_completed := true } := by
  constructor
  · intro h
    unfold complete_task at h
    split at h
    · exact Except.noConfusion h
    next task hl =>
      by_cases h0 : deriveAddress caller task.title ≠ addr
      · rw [if_pos h0] at h; exact Except.noConfusion h
      rw [if_neg h0] at h
      rw [not_not] at h0
      exact ⟨task, hl, h0, (Except.ok.inj h).symm⟩
  · rintro ⟨task, hl, h0, h1⟩
    unfold complete_task
    rw [hl]
    simp only []
    rw [if_neg (by rw [not_not]; exact h0), h1]

/-- Successful `delete_task`, characterised. -/
theorem delete_task_ok_iff (s : Store) (caller : Pubkey) (addr : Address) (s' : Store) :
    delete_task s caller addr = .ok s' ↔
      ∃ task, lookupTask s addr = some task ∧
        deriveAddress caller task.title = addr ∧
        task.author = caller ∧ s' = removeTask s addr := by
  constructor
  · intro h
    unfold delete_task at h
    split at h
    · exact Except.noConfusion h
    next task hl =>
      by_cases h0 : deriveAddress caller task.title ≠ addr
      · rw [if_pos h0] at h; exact Except.noConfusion h
      rw [if_neg h0] at h
      rw [not_not] at h0
      by_cases h1 : task.author = caller
      · rw [if_pos h1] at h
        exact ⟨task, hl, h0, h1, (Except.ok.inj h).symm⟩
      · rw [if_neg h1] at h; exact Except.noConfusion h
  · rintro ⟨task, hl, h0, h1, h2⟩
    unfold delete_task
    rw [hl]
    simp only []
    rw [if_neg (by rw [not_not]; exact h0), if_pos h1, h2]

/-- One transition of the program: some instruction executed successfully. -/
inductive Step : Store → Store → Prop where
  | create {s s' : Store} (caller : Pubkey) (title description : String) (now : Int) :
      create_task s caller title description now = .ok s' → Step s s'
  | update {s s' : Store} (caller : Pubkey) (addr : Address) (description : String) :
      update_task s caller addr description = .ok s' → Step s s'
  | complete {s s' : Store} (caller : Pubkey) (addr : Address) :
      complete_task s caller addr = .ok s' → Step s s'
  | delete {s s' : Store} (caller : Pubkey) (addr : Address) :
      delete_task s caller addr = .ok s' → Step s s'

/-- Stores reachable from the empty store through the program's instructions. -/
inductive Reachable : Store → Prop where
  | init : Reachable []
  | step {s s' : Store} : Reachable s → Step s s' → Reachable s'

/-- The validation invariant on a single live record. -/
def ValidTask (t : Task) : Prop :=
  rustTrimEmpty t.title = false ∧ rustByteLen t.title ≤ 100 ∧
  rustTrimEmpty t.description = false ∧ rustByteLen t.description ≤ 1000

/-- Every live record satisfies the validation invariant. -/
def StoreInv (s : Store) : Prop := ∀ a t, lookupTask s a = some t → ValidTask t

/-- Every live record sits at the PDA derived from its own author and title. -/
def AddrInv (s : Store) : Prop :=
  ∀ a t, lookupTask s a = some t → a = deriveAddress t.author t.title

theorem storeInv_step {s s' : Store} (hinv : StoreInv s) (hstep : Step s s') :
    StoreInv s' := by
  cases hstep with
  | create caller title description now h =>
    obtain ⟨hfree, ht1, ht2, hd1, hd2, hs'⟩ := (create_task_ok_iff ..).mp h
    subst hs'
    intro a t hl
    rw [lookupTask_writeTask] at hl
    split at hl
    · injection hl with hl; subst hl; exact ⟨ht2, ht1, hd2, hd1⟩
    · exact hinv a t hl
  | update caller addr description h =>
    obtain ⟨task, hl0, hseeds, hd1, hd2, hs'⟩ := (update_task_ok_iff ..).mp h
    subst hs'
    intro a t hl
    rw [lookupTask_writeTask] at hl
    split at hl
    · injection hl with hl; subst hl
      obtain ⟨o1, o2, o3, o4⟩ := hinv addr task hl0
      exact ⟨o1, o2, hd2, hd1⟩
    · exact hinv a t hl
  | complete caller addr h =>
    obtain ⟨task, hl0, hseeds, hs'⟩ := (complete_task_ok_iff ..).mp h
    subst hs'
    intro a t hl
    rw [lookupTask_writeTask] at hl
    split at hl
    · injection hl with hl; subst hl
      obtain ⟨o1, o2, o3, o4⟩ := hinv addr task hl0
      exact ⟨o1, o2, o3, o4⟩
    · exact hinv a t hl
  | delete caller addr h =>
    obtain ⟨task, hl0, hseeds, hauth, hs'⟩ := (delete_task_ok_iff ..).mp h
    subst hs'
    intro a t hl
    rw [lookupTask_removeTask] at hl
    split at hl
    · exact Option.noConfusion hl
    · exact hinv a t hl

theorem addrInv_step {s s' : Store} (hinv : AddrInv s) (hstep : Step s s') :
    AddrInv s' := by
  cases hstep with
  | create caller title description now h =>
    obtain ⟨hfree, -, -, -, -, hs'⟩ := (create_task_ok_iff ..).mp h
    subst hs'
    intro a t hl
    rw [lookupTask_writeTask] at hl
    split at hl
    · next heq => injection hl with hl; subst hl; exact heq.symm
    · exact hinv a t hl
  | update caller addr description h =>
    obtain ⟨task, hl0, hseeds, -, -, hs'⟩ := (update_task_ok_iff ..).mp h
    subst hs'
    intro a t hl
    rw [lookupTask_writeTask] at hl
    split at hl
    · next heq =>
        injection hl with hl; subst hl
        rw [← heq]
        exact hinv addr task hl0
    · exact hinv a t hl
  | complete caller addr h =>
    obtain ⟨task, hl0, hseeds, hs'⟩ := (complete_task_ok_iff ..).mp h
    subst hs'
    intro a t hl
    rw [lookupTask_writeTask] at hl
    split at hl
    · next heq =>
        injection hl with hl; subst hl
        rw [← heq]
        exact hinv addr task hl0
    · exact hinv a t hl
  | delete caller addr h =>
    obtain ⟨task, hl0, hseeds, hauth, hs'⟩ := (delete_task_ok_iff ..).mp h
    subst hs'
    intro a t hl
    rw [lookupTask_removeTask] at hl
    split at hl
    · exact Option.noConfusion hl
    · exact hinv a t hl

theorem storeInv_reachable {s : Store} (hs : Reachable s) : StoreInv s := by
  induction hs with
  | init => intro a t hl; exact Option.noConfusion hl
  | step _ hstep ih => exact storeInv_step ih hstep

theorem addrInv_reachable {s : Store} (hs : Reachable s) : AddrInv s := by
  induction hs with
  | init => intro a t hl; exact Option.noConfusion hl
  | step _ hstep ih => exact addrInv_step ih hstep

theorem writeTask_writeTask (s : Store) (addr : Address) (t t2 : Task) :
    writeTask (writeTask s addr t) addr t2 = writeTask s addr t2 := by
  unfold writeTask
  congr 1
  show removeTask ((addr, t) :: removeTask s addr) addr = removeTask s addr
  simp [removeTask, removeTask_removeTask]

/-- C1: for every owner, title and description that pass validation (raw byte
length within limits, non-empty after trimming) with the PDA of (owner, title)
unoccupied, `create_task` succeeds and stores at that PDA a record whose author
is the owner, whose title and description are the supplied strings verbatim,
whose `is_completed` flag is `false` and whose `created_at` is the clock value
at creation; a subsequent read at that address returns exactly this record. -/
theorem create_task_roundtrip (s : Store) (o : Pubkey) (title description : String)
    (now : Int)
    (hfree : lookupTask s (deriveAddress o title) = none)
    (ht1 : rustByteLen title ≤ 100) (ht2 : rustTrimEmpty title = false)
    (hd1 : rustByteLen description ≤ 1000) (hd2 : rustTrimEmpty description = false) :
    ∃ s', create_task s o title description now = .ok s' ∧
      readTask s' (deriveAddress o title) =
        .ok { author := o, title := title, description := description,
              is_completed := false, created_at := now } := by
  refine ⟨_, (create_task_ok_iff ..).mpr ⟨hfree, ht1, ht2, hd1, hd2, rfl⟩, ?_⟩
  unfold readTask
  rw [lookupTask_writeTask, if_pos rfl]

theorem create_task_roundtrip_witness :
    ∃ s', create_task [] 0 "Buy milk" "2%" 7 = .ok s' ∧
      readTask s' (deriveAddress 0 "Buy milk") =
        .ok { author := 0, title := "Buy milk", description := "2%",
              is_completed := false, created_at := 7 } :=
  create_task_roundtrip [] 0 "Buy milk" "2%" 7 (by decide) (by decide) (by decide)
    (by decide) (by decide)

/-- C2 counterexample: on a 101-byte all-whitespace title the trimmed length is
0, but `create_task` fails with `TitleTooLong`, not `TitleIsEmpty` (the claim
that every empty-after-trim title fails with the emptiness error is false on
inputs that also exceed the raw length limit, because the source checks
`title.len() <= 100` first). -/
theorem validation_error_order_cex :
    rustTrimEmpty (String.mk (List.replicate 101 ' ')) = true ∧
    create_task [] 0 (String.mk (List.replicate 101 ' ')) "ok" 0
      = .error (.taskError .TitleTooLong) ∧
    create_task [] 0 (String.mk (List.replicate 101 ' ')) "ok" 0
      ≠ .error (.taskError .TitleIsEmpty) := by
  exact ⟨by decide, by decide, by decide⟩

/-- C2 amended: with the address free, `create_task`'s checks run in source
order — raw title length over 100 bytes gives `TitleTooLong`; otherwise an
empty-after-trim title gives `TitleIsEmpty`; otherwise raw description length
over 1000 bytes gives `DescriptionTooLong`; otherwise an empty-after-trim
description gives `DescriptionIsEmpty` — and `update_task` on a resolved
account applies the same two description checks in the same order. -/
theorem validation_error_order (s : Store) (o : Pubkey) (title d : String) (now : Int) :
    (lookupTask s (deriveAddress o title) = none →
      (100 < rustByteLen title →
        create_task s o title d now = .error (.taskError .TitleTooLong)) ∧
      (rustByteLen title ≤ 100 → rustTrimEmpty title = true →
        create_task s o title d now = .error (.taskError .TitleIsEmpty)) ∧
      (rustByteLen title ≤ 100 → rustTrimEmpty title = false → 1000 < rustByteLen d →
        create_task s o title d now = .error (.taskError .DescriptionTooLong)) ∧
      (rustByteLen title ≤ 100 → rustTrimEmpty title = false → rustByteLen d ≤ 1000 →
        rustTrimEmpty d = true →
        create_task s o title d now = .error (.taskError .DescriptionIsEmpty))) ∧
    (∀ (addr : Address) (task : Task), lookupTask s addr = some task →
      deriveAddress o task.title = addr →
      (1000 < rustByteLen d →
        update_task s o addr d = .error (.taskError .DescriptionTooLong)) ∧
      (rustByteLen d ≤ 1000 → rustTrimEmpty d = true →
        update_task s o addr d = .error (.taskError .DescriptionIsEmpty))) := by
  constructor
  · intro hfree
    have hni : ¬ (lookupTask s (deriveAddress o title)).isSome = true := by
      rw [hfree]; simp
    refine ⟨?_, ?_, ?_, ?_⟩
    · intro h1
      unfold create_task
      rw [if_neg hni, if_pos h1]
    · intro h1 h2
      unfold create_task
      rw [if_neg hni, if_neg (Nat.not_lt.mpr h1), if_pos h2]
    · intro h1 h2 h3
      unfold create_task
      rw [if_neg hni, if_neg (Nat.not_lt.mpr h1), if_neg (by rw [h2]; simp), if_pos h3]
    · intro h1 h2 h3 h4
      unfold create_task
      rw [if_neg hni, if_neg (Nat.not_lt.mpr h1), if_neg (by rw [h2]; simp),
          if_neg (Nat.not_lt.mpr h3), if_pos h4]
  · intro addr task hl hseeds
    constructor
    · intro h1
      unfold update_task
      rw [hl]
      simp only []
      rw [if_neg (by rw [not_not]; exact hseeds), if_pos h1]
    · intro h1 h2
      unfold update_task
      rw [hl]
      simp only []
      rw [if_neg (by rw [not_not]; exact hseeds), if_neg (Nat.not_lt.mpr h1), if_pos h2]

set_option maxRecDepth 16384 in
theorem validation_error_order_witness :
    create_task [] 0 (String.mk (List.replicate 101 'a')) "d" 0
      = .error (.taskError .TitleTooLong) ∧
    update_task [(deriveAddress 0 "t",
        { author := 0, title := "t", description := "d", is_completed := false,
          created_at := 0 })] 0 (deriveAddress 0 "t") (String.mk (List.replicate 1001 'b'))
      = .error (.taskError .DescriptionTooLong) :=
  ⟨((validation_error_order [] 0 (String.mk (List.replicate 101 'a')) "d" 0).1
      (by decide)).1 (by decide),
   ((validation_error_order [(deriveAddress 0 "t", ⟨0, "t", "d", false, 0⟩)] 0 "t"
      (String.mk (List.replicate 1001 'b')) 0).2 (deriveAddress 0 "t")
      ⟨0, "t", "d", false, 0⟩ (by decide) rfl).1 (by decide)⟩

/-- C3: once `create_task` has succeeded for (owner, title), any second
`create_task` with the same owner and title fails with `AlreadyExists`
(Anchor's `init` constraint on the occupied PDA) regardless of the new
description and clock value, and the first record is still stored unchanged. -/
theorem create_task_no_overwrite (s : Store) (o : Pubkey) (title d1 : String)
    (n1 : Int) (s' : Store)
    (h1 : create_task s o title d1 n1 = .ok s') :
    ∀ (d2 : String) (n2 : Int),
      create_task s' o title d2 n2 = .error .alreadyExists ∧
      lookupTask s' (deriveAddress o title) =
        some { author := o, title := title, description := d1,
               is_completed := false, created_at := n1 } := by
  obtain ⟨hfree, -, -, -, -, hs'⟩ := (create_task_ok_iff ..).mp h1
  subst hs'
  intro d2 n2
  have hl : lookupTask
      (writeTask s (deriveAddress o title)
        { author := o, title := title, description := d1,
          is_completed := false, created_at := n1 }) (deriveAddress o title) =
      some { author := o, title := title, description := d1,
             is_completed := false, created_at := n1 } := by
    rw [lookupTask_writeTask, if_pos rfl]
  refine ⟨?_, hl⟩
  unfold create_task
  rw [hl]
  simp

theorem create_task_no_overwrite_witness :
    create_task [(deriveAddress 0 "t",
        { author := 0, title := "t", description := "d", is_completed := false,
          created_at := 0 })] 0 "t" "e" 1 = .error .alreadyExists ∧
    lookupTask [(deriveAddress 0 "t",
        { author := 0, title := "t", description := "d", is_completed := false,
          created_at := 0 })] (deriveAddress 0 "t")
      = some { author := 0, title := "t", description := "d",
               is_completed := false, created_at := 0 } :=
  create_task_no_overwrite [] 0 "t" "d" 0
    [(deriveAddress 0 "t", ⟨0, "t", "d", false, 0⟩)] rfl "e" 1

/-- C4: a successful `update_task` on an existing task replaces only the
description: the stored record afterwards has the new description but the same
title, author, completion flag and creation time as before, and every other
address is untouched. -/
theorem update_task_frame (s : Store) (caller : Pubkey) (addr : Address)
    (d : String) (s' : Store) (task : Task)
    (hl : lookupTask s addr = some task)
    (h : update_task s caller addr d = .ok s') :
    ∃ t', lookupTask s' addr = some t' ∧
      t'.description = d ∧ t'.title = task.title ∧ t'.author = task.author ∧
      t'.is_completed = task.is_completed ∧ t'.created_at = task.created_at ∧
      ∀ a, a ≠ addr → lookupTask s' a = lookupTask s a := by
  obtain ⟨task2, hl2, hseeds, hd1, hd2, hs'⟩ := (update_task_ok_iff ..).mp h
  rw [hl] at hl2
  injection hl2 with hl2
  subst hl2
  subst hs'
  refine ⟨{ task with description := d }, ?_, rfl, rfl, rfl, rfl, rfl, ?_⟩
  · rw [lookupTask_writeTask, if_pos rfl]
  · intro a ha
    rw [lookupTask_writeTask, if_neg (fun hh => ha hh.symm)]

theorem update_task_frame_witness :
    ∃ t', lookupTask [(deriveAddress 1 "t",
        { author := 1, title := "t", description := "new", is_completed := false,
          created_at := 3 })] (deriveAddress 1 "t") = some t' ∧
      t'.description = "new" ∧ t'.title = "t" ∧ t'.author = 1 ∧
      t'.is_completed = false ∧ t'.created_at = 3 ∧
      ∀ a, a ≠ deriveAddress 1 "t" →
        lookupTask [(deriveAddress 1 "t",
          { author := 1, title := "t", description := "new", is_completed := false,
            created_at := 3 })] a
        = lookupTask [(deriveAddress 1 "t",
          { author := 1, title := "t", description := "old", is_completed := false,
            created_at := 3 })] a :=
  update_task_frame [(deriveAddress 1 "t", ⟨1, "t", "old", false, 3⟩)] 1
    (deriveAddress 1 "t") "new" [(deriveAddress 1 "t", ⟨1, "t", "new", false, 3⟩)]
    ⟨1, "t", "old", false, 3⟩ (by decide) rfl

/-- C5: for a task resolved at the caller's PDA, `delete_task` by a caller
different from the stored author fails with `Unauthorized` (the record stays,
since a failing instruction changes no state), while `delete_task` by the
stored author succeeds and a subsequent read at that address fails with
`NotFound` (the slot is reclaimed; the rent refund to the author is Anchor's
`close = author` and is outside the record-store model). -/
theorem delete_task_auth (s : Store) (caller : Pubkey) (title : String) (task : Task)
    (hl : lookupTask s (deriveAddress caller title) = some task)
    (htitle : task.title = title) :
    (task.author ≠ caller →
      delete_task s caller (deriveAddress caller title)
        = .error (.taskError .Unauthorized)) ∧
    (task.author = caller →
      ∃ s', delete_task s caller (deriveAddress caller title) = .ok s' ∧
        readTask s' (deriveAddress caller title) = .error .accountNotFound) := by
  constructor
  · intro hne
    unfold delete_task
    rw [hl]
    simp only []
    rw [if_neg (by rw [not_not, htitle]), if_neg hne]
  · intro heq
    refine ⟨removeTask s (deriveAddress caller title),
      (delete_task_ok_iff ..).mpr ⟨task, hl, by rw [htitle], heq, rfl⟩, ?_⟩
    unfold readTask
    rw [lookupTask_removeTask, if_pos rfl]

theorem delete_task_auth_witness :
    delete_task [(deriveAddress 1 "t",
        { author := 2, title := "t", description := "d", is_completed := false,
          created_at := 0 })] 1 (deriveAddress 1 "t")
      = .error (.taskError .Unauthorized) ∧
    ∃ s', delete_task [(deriveAddress 1 "t",
        { author := 1, title := "t", description := "d", is_completed := false,
          created_at := 0 })] 1 (deriveAddress 1 "t") = .ok s' ∧
      readTask s' (deriveAddress 1 "t") = .error .accountNotFound :=
  ⟨(delete_task_auth [(deriveAddress 1 "t", ⟨2, "t", "d", false, 0⟩)] 1 "t"
      ⟨2, "t", "d", false, 0⟩ (by decide) rfl).1 (by decide),
   (delete_task_auth [(deriveAddress 1 "t", ⟨1, "t", "d", false, 0⟩)] 1 "t"
      ⟨1, "t", "d", false, 0⟩ (by decide) rfl).2 rfl⟩

/-- C6: in every store reachable from the empty store through the program's
instructions, every live record has a title and description that are non-empty
after trimming whitespace, a title of at most 100 raw bytes and a description
of at most 1000 raw bytes. -/
theorem live_record_limits (s : Store) (hs : Reachable s) (a : Address) (t : Task)
    (hl : lookupTask s a = some t) :
    rustTrimEmpty t.title = false ∧ rustByteLen t.title ≤ 100 ∧
    rustTrimEmpty t.description = false ∧ rustByteLen t.description ≤ 1000 :=
  storeInv_reachable hs a t hl

theorem live_record_limits_witness :
    rustTrimEmpty "Buy milk" = false ∧ rustByteLen "Buy milk" ≤ 100 ∧
    rustTrimEmpty "2%" = false ∧ rustByteLen "2%" ≤ 1000 :=
  live_record_limits
    [(deriveAddress 0 "Buy milk",
      { author := 0, title := "Buy milk", description := "2%",
        is_completed := false, created_at := 7 })]
    (Reachable.step Reachable.init (Step.create 0 "Buy milk" "2%" 7 rfl))
    (deriveAddress 0 "Buy milk")
    { author := 0, title := "Buy milk", description := "2%",
      is_completed := false, created_at := 7 }
    (by decide)

/-- C7: address derivation is a pure function of the fixed namespace tag, the
owner and the raw title bytes: two derivations agree exactly when owner and
title agree byte for byte (so any difference, whitespace included, changes the
address), and two tasks agreeing on author and title — whatever their
description, completion flag or creation time — derive the same address. -/
theorem deriveAddress_pure_injective :
    (∀ (o1 o2 : Pubkey) (t1 t2 : String),
      deriveAddress o1 t1 = deriveAddress o2 t2 ↔ o1 = o2 ∧ t1 = t2) ∧
    (∀ t1 t2 : Task, t1.author = t2.author → t1.title = t2.title →
      deriveAddress t1.author t1.title = deriveAddress t2.author t2.title) := by
  constructor
  · intro o1 o2 t1 t2
    unfold deriveAddress
    constructor
    · intro h
      injection h with h1 h2 h3
      exact ⟨h2, h3⟩
    · rintro ⟨rfl, rfl⟩
      rfl
  · intro t1 t2 h1 h2
    rw [h1, h2]

theorem deriveAddress_pure_injective_witness :
    (deriveAddress 0 "a" = deriveAddress 0 "a " ↔ 0 = 0 ∧ "a" = "a ") ∧
    deriveAddress (Task.author ⟨5, "t", "x", false, 0⟩) (Task.title ⟨5, "t", "x", false, 0⟩)
      = deriveAddress (Task.author ⟨5, "t", "y", true, 9⟩)
          (Task.title ⟨5, "t", "y", true, 9⟩) :=
  ⟨deriveAddress_pure_injective.1 0 0 "a" "a ",
   deriveAddress_pure_injective.2 ⟨5, "t", "x", false, 0⟩ ⟨5, "t", "y", true, 9⟩ rfl rfl⟩

/-- C8: `complete_task` on an existing task succeeds and sets `is_completed`
to `true`; running it again on the result succeeds as well and returns the very
same store, in which the flag is still `true` — completion is idempotent and
completing an already-completed task is a no-op success, not an error. -/
theorem complete_task_idempotent (s : Store) (caller : Pubkey) (title : String)
    (task : Task)
    (hl : lookupTask s (deriveAddress caller title) = some task)
    (htitle : task.title = title) :
    ∃ s', complete_task s caller (deriveAddress caller title) = .ok s' ∧
      lookupTask s' (deriveAddress caller title)
        = some { task with is_completed := true } ∧
      complete_task s' caller (deriveAddress caller title) = .ok s' := by
  refine ⟨writeTask s (deriveAddress caller title) { task with is_completed := true },
    (complete_task_ok_iff ..).mpr ⟨task, hl, by rw [htitle], rfl⟩, ?_, ?_⟩
  · rw [lookupTask_writeTask, if_pos rfl]
  · apply (complete_task_ok_iff ..).mpr
    refine ⟨{ task with is_completed := true },
      by rw [lookupTask_writeTask, if_pos rfl], ?_, ?_⟩
    · show deriveAddress caller task.title = deriveAddress caller title
      rw [htitle]
    · exact (writeTask_writeTask s (deriveAddress caller title)
        { task with is_completed := true } { task with is_completed := true }).symm

theorem complete_task_idempotent_witness :
    ∃ s', complete_task [(deriveAddress 2 "t",
        { author := 2, title := "t", description := "d", is_completed := false,
          created_at := 5 })] 2 (deriveAddress 2 "t") = .ok s' ∧
      lookupTask s' (deriveAddress 2 "t")
        = some { author := 2, title := "t", description := "d",
                 is_completed := true, created_at := 5 } ∧
      complete_task s' 2 (deriveAddress 2 "t") = .ok s' :=
  complete_task_idempotent [(deriveAddress 2 "t", ⟨2, "t", "d", false, 5⟩)] 2 "t"
    ⟨2, "t", "d", false, 5⟩ (by decide) rfl

/-- C9 counterexample: a title of 100 spaces followed by one letter is 101 raw
bytes but only 1 byte after trimming — within the claimed 1–100 trimmed-byte
window — yet `create_task` rejects it with `TitleTooLong`, because the source
checks the raw length `title.len() <= 100`, not the trimmed length. -/
theorem raw_vs_trimmed_limit_cex :
    1 ≤ byteLenL (rustTrim (String.mk (List.replicate 100 ' ' ++ ['a']))) ∧
    byteLenL (rustTrim (String.mk (List.replicate 100 ' ' ++ ['a']))) ≤ 100 ∧
    1 ≤ byteLenL (rustTrim "d") ∧ byteLenL (rustTrim "d") ≤ 1000 ∧
    create_task [] 0 (String.mk (List.replicate 100 ' ' ++ ['a'])) "d" 0
      = .error (.taskError .TitleTooLong) := by
  exact ⟨by decide, by decide, by decide, by decide, by decide⟩

/-- C9 amended: the byte limits are on the raw strings: with the PDA free,
`create_task` accepts exactly the inputs whose raw title length is at most 100
bytes, raw description length at most 1000 bytes, and whose title and
description are non-empty after trimming. -/
theorem create_task_accepts_iff (s : Store) (o : Pubkey) (title d : String) (now : Int)
    (hfree : lookupTask s (deriveAddress o title) = none) :
    (∃ s', create_task s o title d now = .ok s') ↔
      rustByteLen title ≤ 100 ∧ rustTrimEmpty title = false ∧
      rustByteLen d ≤ 1000 ∧ rustTrimEmpty d = false := by
  constructor
  · rintro ⟨s', h⟩
    obtain ⟨-, h1, h2, h3, h4, -⟩ := (create_task_ok_iff ..).mp h
    exact ⟨h1, h2, h3, h4⟩
  · rintro ⟨h1, h2, h3, h4⟩
    exact ⟨_, (create_task_ok_iff ..).mpr ⟨hfree, h1, h2, h3, h4, rfl⟩⟩

theorem create_task_accepts_iff_witness :
    (∃ s', create_task [] 0 "t" "d" 0 = .ok s') ↔
      rustByteLen "t" ≤ 100 ∧ rustTrimEmpty "t" = false ∧
      rustByteLen "d" ≤ 1000 ∧ rustTrimEmpty "d" = false :=
  create_task_accepts_iff [] 0 "t" "d" 0 (by decide)

/-- C10: in every store reachable through the program, `delete_task` never
fails with `Unauthorized`: a record created by `create_task` lives at the PDA
derived from its own author and title, so when the Anchor `seeds` constraint
resolves the account for a caller, the stored author necessarily equals that
caller and the handler's explicit equality check cannot fire. -/
theorem delete_unauthorized_unreachable (s : Store) (hs : Reachable s)
    (caller : Pubkey) (addr : Address) :
    delete_task s caller addr ≠ .error (.taskError .Unauthorized) := by
  intro h
  have hinv := addrInv_reachable hs
  unfold delete_task at h
  split at h
  · simp at h
  next task hl =>
    by_cases h0 : deriveAddress caller task.title ≠ addr
    · rw [if_pos h0] at h
      simp at h
    rw [if_neg h0] at h
    rw [not_not] at h0
    by_cases h1 : task.author = caller
    · rw [if_pos h1] at h
      simp at h
    · rw [if_neg h1] at h
      have h2 := hinv addr task hl
      rw [← h0] at h2
      unfold deriveAddress at h2
      injection h2 with e1 e2 e3
      exact h1 e2.symm

theorem delete_unauthorized_unreachable_witness :
    delete_task [(deriveAddress 0 "t",
        { author := 0, title := "t", description := "d", is_completed := false,
          created_at := 0 })] 1 (deriveAddress 0 "t")
      ≠ .error (.taskError .Unauthorized) :=
  delete_unauthorized_unreachable
    [(deriveAddress 0 "t", ⟨0, "t", "d", false, 0⟩)]
    (Reachable.step Reachable.init (Step.create 0 "t" "d" 0 rfl)) 1 (deriveAddress 0 "t")

end TaskManager

